import Mathlib

/-!
Shallow embedding of the starbot astronomy library.

Source files embedded here:
- src/math.rs     : the Angle value type (degrees-backed) with unit
  constructors and accessors, trigonometric operations and normalization;
- src/common.rs   : SkyCoord, GroundCoord, WorldTransform (a glam
  DAffine2 wrapper), JulianDate, JulianInterval, and the sidereal-time
  functions earth_rotation_angle and greenwich_mean_sidereal_time;
- src/solver/common.rs : the PlateSolveResult aggregate and its newtype
  components.

Rust f64 values are modelled as real numbers.  The Rust remainder
operator on f64 (truncated remainder, sign of the dividend) is modelled
by rustRem below.  Rust f64::atan2 (mathematical atan2 with range
(-pi, pi] on nonzero-sign-free reals) is modelled by atan2Real.
-/

noncomputable section

/-- Truncation toward zero of a real number, as Rust casts / f64 trunc. -/
def rtrunc (x : ℝ) : ℤ := if 0 ≤ x then ⌊x⌋ else ⌈x⌉

/-- The Rust remainder operator on f64: x % y = x - y * trunc (x / y). -/
def rustRem (x y : ℝ) : ℝ := x - y * (rtrunc (x / y) : ℝ)

/-- Rust f64::atan2 on real inputs: the angle of the point (x, y),
first argument is the y-coordinate, range (-pi, pi]. -/
def atan2Real (y x : ℝ) : ℝ :=
  if 0 < x then Real.arctan (y / x)
  else if x < 0 then
    (if 0 ≤ y then Real.arctan (y / x) + Real.pi else Real.arctan (y / x) - Real.pi)
  else
    (if 0 < y then Real.pi / 2 else if y < 0 then -(Real.pi / 2) else 0)

/-- src/math.rs: `pub struct Angle(f64)` — degrees-backed angle type. -/
structure Angle where
  deg : ℝ

namespace Angle

/-- src/math.rs: `Angle::PI`, 180 degrees. -/
def PI : Angle := ⟨180⟩

/-- src/math.rs: `Angle::TAU`, 360 degrees. -/
def TAU : Angle := ⟨360⟩

/-- src/math.rs: `Angle::from_degrees`. -/
def from_degrees (d : ℝ) : Angle := ⟨d⟩

/-- src/math.rs: `Angle::from_radians`, rad.to_degrees(). -/
def from_radians (rad : ℝ) : Angle := ⟨rad * (180 / Real.pi)⟩

/-- src/math.rs: `Angle::degrees`. -/
def degrees (a : Angle) : ℝ := a.deg

/-- src/math.rs: `Angle::radians`, self.0.to_radians(). -/
def radians (a : Angle) : ℝ := a.deg * (Real.pi / 180)

/-- src/math.rs: `Angle::from_rotations`. -/
def from_rotations (rot : ℝ) : Angle := ⟨rot * 360⟩

/-- src/math.rs: `Angle::rotations`. -/
def rotations (a : Angle) : ℝ := a.deg / 360

/-- src/math.rs: `Angle::normalize`, ((self.0 % 360.0) + 360.0) % 360.0. -/
def normalize (a : Angle) : Angle := ⟨rustRem (rustRem a.deg 360 + 360) 360⟩

/-- src/math.rs: `Angle::sin`, self.0.to_radians().sin(). -/
def sin (a : Angle) : ℝ := Real.sin a.radians

/-- src/math.rs: `Angle::cos`. -/
def cos (a : Angle) : ℝ := Real.cos a.radians

/-- src/math.rs: `Angle::tan`. -/
def tan (a : Angle) : ℝ := Real.tan a.radians

/-- src/math.rs: `Angle::asin`, rad.asin().to_degrees(). -/
def asin (rad : ℝ) : Angle := ⟨Real.arcsin rad * (180 / Real.pi)⟩

/-- src/math.rs: `Angle::acos`. -/
def acos (rad : ℝ) : Angle := ⟨Real.arccos rad * (180 / Real.pi)⟩

/-- src/math.rs: `Angle::atan`. -/
def atan (rad : ℝ) : Angle := ⟨Real.arctan rad * (180 / Real.pi)⟩

/-- src/math.rs: `Angle::atan2(x, y)` = x.atan2(y).to_degrees(). -/
def atan2 (x y : ℝ) : Angle := ⟨atan2Real x y * (180 / Real.pi)⟩

end Angle

instance : Add Angle := ⟨fun a b => ⟨a.deg + b.deg⟩⟩

instance : Sub Angle := ⟨fun a b => ⟨a.deg - b.deg⟩⟩

instance : Mul Angle := ⟨fun a b => ⟨a.deg * b.deg⟩⟩

instance : Div Angle := ⟨fun a b => ⟨a.deg / b.deg⟩⟩

instance : Mod Angle := ⟨fun a b => ⟨rustRem a.deg b.deg⟩⟩

/-- src/common.rs: `pub struct JulianInterval(f64)` — signed duration in days. -/
structure JulianInterval where
  days : ℝ

namespace JulianInterval

/-- src/common.rs: `JulianInterval::YEAR` = 36525.0 days (a Julian century). -/
def YEAR : JulianInterval := ⟨36525⟩

/-- src/common.rs: `JulianInterval::julian` accessor. -/
def julian (i : JulianInterval) : ℝ := i.days

end JulianInterval

instance : Add JulianInterval := ⟨fun a b => ⟨a.days + b.days⟩⟩

instance : Sub JulianInterval := ⟨fun a b => ⟨a.days - b.days⟩⟩

instance : Mul JulianInterval := ⟨fun a b => ⟨a.days * b.days⟩⟩

instance : Div JulianInterval := ⟨fun a b => ⟨a.days / b.days⟩⟩

/-- src/common.rs: `pub struct JulianDate(f64)` — instant as a Julian Date. -/
structure JulianDate where
  val : ℝ

namespace JulianDate

/-- src/common.rs: `JulianDate::J2000` = 2451545.0. -/
def J2000 : JulianDate := ⟨2451545⟩

/-- src/common.rs: `JulianDate::julian` accessor. -/
def julian (d : JulianDate) : ℝ := d.val

/-- src/common.rs: `JulianDate::frac` = Self(self.0 % 1.0). -/
def frac (d : JulianDate) : JulianDate := ⟨rustRem d.val 1⟩

end JulianDate

instance : HSub JulianDate JulianDate JulianInterval :=
  ⟨fun a b => ⟨a.val - b.val⟩⟩

/-- src/common.rs: `pub struct SkyCoord` with fields ra, dec, date. -/
structure SkyCoord where
  ra : Angle
  dec : Angle
  date : JulianDate

namespace SkyCoord

/-- src/common.rs: `SkyCoord::from_ra_dec` — date defaults to J2000. -/
def from_ra_dec (ra dec : Angle) : SkyCoord := ⟨ra, dec, JulianDate.J2000⟩

/-- src/common.rs: `SkyCoord::from_ra_dec_date`. -/
def from_ra_dec_date (ra dec : Angle) (date : JulianDate) : SkyCoord := ⟨ra, dec, date⟩

/-- src/common.rs: `SkyCoord::ra_dec` accessor. -/
def ra_dec (s : SkyCoord) : Angle × Angle := (s.ra, s.dec)

end SkyCoord

/-- src/common.rs: `pub struct GroundCoord` with fields lat, long. -/
structure GroundCoord where
  lat : Angle
  long : Angle

namespace GroundCoord

/-- src/common.rs: `GroundCoord::from_lat_long`. -/
def from_lat_long (lat long : Angle) : GroundCoord := ⟨lat, long⟩

/-- src/common.rs: `GroundCoord::lat_long` accessor. -/
def lat_long (g : GroundCoord) : Angle × Angle := (g.lat, g.long)

end GroundCoord

/-- src/common.rs: `earth_rotation_angle`. -/
def earth_rotation_angle (julian_date : JulianDate) : Angle :=
  let t := julian_date - JulianDate.J2000
  let era := 0.7790572732640 + 0.00273781191135448 * t.julian + julian_date.frac.julian
  (Angle.from_rotations era).normalize

/-- src/common.rs: `greenwich_mean_sidereal_time` — exactly as implemented:
86400 times the ERA in rotations, plus the arcsecond polynomial, the sum
passed to Angle::from_radians. -/
def greenwich_mean_sidereal_time (julian_date : JulianDate) : Angle :=
  let t := ((julian_date - JulianDate.J2000) / JulianInterval.YEAR).julian
  let era := earth_rotation_angle julian_date
  let gmst := 86400 * era.rotations +
    (0.014506 + 4612.156534 * t + 1.3915817 * t ^ 2 - 0.00000044 * t ^ 3 -
      0.000029956 * t ^ 4 - 0.0000000368 * t ^ 5)
  Angle.from_radians gmst

/-- Specification-side GMST, stated from the spec text for comparison with
the implementation: GMST = ERA(jd) + P(T_cent) where P is the arcsecond
polynomial and is converted from arcseconds to degrees (1 arcsecond =
1/3600 degree) before being added to the ERA angle. -/
def gmstSpecification (julian_date : JulianDate) : Angle :=
  let t := ((julian_date - JulianDate.J2000) / JulianInterval.YEAR).julian
  let p := 0.014506 + 4612.156534 * t + 1.3915817 * t ^ 2 - 0.00000044 * t ^ 3 -
    0.000029956 * t ^ 4 - 0.0000000368 * t ^ 5
  earth_rotation_angle julian_date + Angle.from_degrees (p / 3600)

/-- src/common.rs, inside `SkyCoord::alt_az`: local sidereal time,
(gmst + long) % Angle::TAU. -/
def localSiderealTime (s : SkyCoord) (g : GroundCoord) : Angle :=
  (greenwich_mean_sidereal_time s.date + g.long) % Angle.TAU

/-- src/common.rs, inside `SkyCoord::alt_az`: the match folding the
difference LST - ra — if radians < 0 add TAU, else if radians > PI
subtract TAU, else unchanged. -/
def foldHourAngle (d : Angle) : Angle :=
  if d.radians < 0 then d + Angle.TAU
  else if Real.pi < d.radians then d - Angle.TAU
  else d

/-- src/common.rs, inside `SkyCoord::alt_az`: the hour angle h. -/
def hourAngle (s : SkyCoord) (g : GroundCoord) : Angle :=
  foldHourAngle (localSiderealTime s g - s.ra)

/-- src/common.rs: `SkyCoord::alt_az`, returning (alt, az). -/
def SkyCoord.alt_az (s : SkyCoord) (g : GroundCoord) : Angle × Angle :=
  let lat := g.lat
  let h := hourAngle s g
  let az0 := Angle.atan2 h.sin (h.cos * lat.sin - s.dec.tan * lat.cos) - Angle.PI
  let az := if az0.radians < 0 then az0 + Angle.TAU else az0
  let alt := Angle.asin (lat.sin * s.dec.sin + lat.cos * s.dec.cos * h.cos)
  (alt, az)

/-- glam DVec2: a pair of f64 coordinates. -/
structure DVec2 where
  x : ℝ
  y : ℝ

instance : Add DVec2 := ⟨fun a b => ⟨a.x + b.x, a.y + b.y⟩⟩

instance : Neg DVec2 := ⟨fun a => ⟨-a.x, -a.y⟩⟩

/-- glam DMat2: 2x2 matrix stored as two column vectors. -/
structure DMat2 where
  x_axis : DVec2
  y_axis : DVec2

namespace DMat2

/-- glam DMat2::from_cols_array on [m0, m1, m2, m3]: columns (m0, m1) and (m2, m3). -/
def from_cols_array (m0 m1 m2 m3 : ℝ) : DMat2 := ⟨⟨m0, m1⟩, ⟨m2, m3⟩⟩

/-- glam DMat2 * DVec2: x_axis scaled by v.x plus y_axis scaled by v.y. -/
def mulVec (m : DMat2) (v : DVec2) : DVec2 :=
  ⟨m.x_axis.x * v.x + m.y_axis.x * v.y, m.x_axis.y * v.x + m.y_axis.y * v.y⟩

/-- glam DMat2::determinant. -/
def determinant (m : DMat2) : ℝ := m.x_axis.x * m.y_axis.y - m.x_axis.y * m.y_axis.x

/-- glam DMat2::inverse via the closed-form 2x2 inverse scaled by 1/det. -/
def inverse (m : DMat2) : DMat2 :=
  let inv_det := (m.determinant)⁻¹
  ⟨⟨m.y_axis.y * inv_det, m.x_axis.y * -inv_det⟩,
   ⟨m.y_axis.x * -inv_det, m.x_axis.x * inv_det⟩⟩

end DMat2

/-- glam DAffine2: 2x2 linear part plus translation. -/
structure DAffine2 where
  matrix2 : DMat2
  translation : DVec2

namespace DAffine2

/-- glam DAffine2::from_mat2_translation. -/
def from_mat2_translation (m : DMat2) (t : DVec2) : DAffine2 := ⟨m, t⟩

/-- glam DAffine2::transform_point2: matrix2 * p + translation. -/
def transform_point2 (a : DAffine2) (p : DVec2) : DVec2 :=
  a.matrix2.mulVec p + a.translation

/-- glam DAffine2::inverse: invert the linear part, translation becomes
-(inverse_matrix * translation). -/
def inverse (a : DAffine2) : DAffine2 :=
  let matrix2 := a.matrix2.inverse
  let translation := -(matrix2.mulVec a.translation)
  ⟨matrix2, translation⟩

end DAffine2

/-- src/common.rs: `pub struct WorldTransform` wrapping a glam DAffine2. -/
structure WorldTransform where
  affine : DAffine2

namespace WorldTransform

/-- src/common.rs: `WorldTransform::from_mat2_translation` with the
column-major CD array [m0, m1, m2, m3] and translation [t0, t1]. -/
def from_mat2_translation (m0 m1 m2 m3 t0 t1 : ℝ) : WorldTransform :=
  ⟨DAffine2.from_mat2_translation (DMat2.from_cols_array m0 m1 m2 m3) ⟨t0, t1⟩⟩

/-- src/common.rs: `WorldTransform::pixel_to_world`. -/
def pixel_to_world (wt : WorldTransform) (pixel_coord : ℝ × ℝ) : SkyCoord :=
  let ra_dec := wt.affine.transform_point2 ⟨pixel_coord.1, pixel_coord.2⟩
  SkyCoord.from_ra_dec (Angle.from_degrees ra_dec.x) (Angle.from_degrees ra_dec.y)

/-- src/common.rs: `WorldTransform::world_to_pixel`. -/
def world_to_pixel (wt : WorldTransform) (world_coord : SkyCoord) : ℝ × ℝ :=
  let rd := world_coord.ra_dec
  let xy := wt.affine.inverse.transform_point2 ⟨rd.1.degrees, rd.2.degrees⟩
  (xy.x, xy.y)

end WorldTransform

namespace Solver

/-- Modelled from the spec: `crate::math::Degree` is referenced by
src/solver/common.rs but absent from src/math.rs; modelled as a
real-valued degree newtype per the spec's degree-valued fields. -/
structure Degree where
  deg : ℝ

/-- Degree::new constructor. -/
def Degree.new (d : ℝ) : Degree := ⟨d⟩

/-- src/solver/common.rs: `pub struct RightAscention(Degree)`. -/
structure RightAscention where
  val : Degree

/-- src/solver/common.rs: `RightAscention::new`. -/
def RightAscention.new (d : ℝ) : RightAscention := ⟨Degree.new d⟩

/-- src/solver/common.rs: `pub struct Declination(Degree)`. -/
structure Declination where
  val : Degree

/-- src/solver/common.rs: `Declination::new`. -/
def Declination.new (d : ℝ) : Declination := ⟨Degree.new d⟩

/-- src/solver/common.rs: `pub struct FieldOfView(Degree)`. -/
structure FieldOfView where
  val : Degree

/-- src/solver/common.rs: `FieldOfView::new`. -/
def FieldOfView.new (d : ℝ) : FieldOfView := ⟨Degree.new d⟩

/-- src/solver/common.rs: `pub struct Orientation(Degree)`. -/
structure Orientation where
  val : Degree

/-- src/solver/common.rs: `Orientation::new`. -/
def Orientation.new (d : ℝ) : Orientation := ⟨Degree.new d⟩

/-- src/solver/common.rs: `pub struct PixelScale(Degree)`. -/
structure PixelScale where
  val : Degree

/-- src/solver/common.rs: `PixelScale::new`. -/
def PixelScale.new (d : ℝ) : PixelScale := ⟨Degree.new d⟩

/-- src/solver/common.rs: `pub struct PlateSolveResult` with its five
public fields, exactly as in the source. -/
structure PlateSolveResult where
  ra : RightAscention
  dec : Declination
  fov : FieldOfView
  pixel_scale : PixelScale
  orientation : Orientation

/-- src/solver/common.rs: `pub struct PlateSolverOptions`. -/
structure PlateSolverOptions where
  fov_guess : FieldOfView

end Solver

/-- Sample WCS transform from the repository's test data: CD matrix
[-0.0006800583210471, 0.006300323281833, 0.006309995699828,
0.0005179551839743] and translation [234.5683671466, 88.14896797072]. -/
def sampleTransform : WorldTransform :=
  WorldTransform.from_mat2_translation (-0.0006800583210471) 0.006300323281833
    0.006309995699828 0.0005179551839743 234.5683671466 88.14896797072

/-- A sky coordinate with a right ascension of -1000 degrees, at J2000. -/
def badSky : SkyCoord :=
  SkyCoord.from_ra_dec_date (Angle.from_degrees (-1000)) (Angle.from_degrees 0) ⟨2451545⟩

/-- The observer at latitude 0, longitude 0. -/
def originGround : GroundCoord :=
  GroundCoord.from_lat_long (Angle.from_degrees 0) (Angle.from_degrees 0)

/-! Helper lemmas about the truncated remainder and angle normalization. -/

lemma rustRem_eq_mul_fract (x y : ℝ) (hx : 0 ≤ x / y) (hy : y ≠ 0) :
    rustRem x y = y * Int.fract (x / y) := by
  unfold rustRem rtrunc
  rw [if_pos hx, Int.fract, mul_sub, mul_div_cancel₀ _ hy]

lemma rustRem_nonneg (x y : ℝ) (hx : 0 ≤ x) (hy : 0 < y) : 0 ≤ rustRem x y := by
  rw [rustRem_eq_mul_fract x y (div_nonneg hx hy.le) hy.ne']
  exact mul_nonneg hy.le (Int.fract_nonneg _)

lemma rustRem_lt (x y : ℝ) (hx : 0 ≤ x) (hy : 0 < y) : rustRem x y < y := by
  rw [rustRem_eq_mul_fract x y (div_nonneg hx hy.le) hy.ne']
  calc y * Int.fract (x / y) < y * 1 := by
        exact mul_lt_mul_of_pos_left (Int.fract_lt_one _) hy
    _ = y := mul_one y

lemma rustRem_bounds (x y : ℝ) (hy : 0 < y) :
    -y < rustRem x y ∧ rustRem x y < y := by
  rcases le_or_lt 0 (x / y) with hq | hq
  · have h1 := rustRem_eq_mul_fract x y hq hy.ne'
    constructor
    · rw [h1]
      have : (0:ℝ) ≤ y * Int.fract (x / y) := mul_nonneg hy.le (Int.fract_nonneg _)
      linarith
    · rw [h1]
      have : y * Int.fract (x / y) < y * 1 :=
        mul_lt_mul_of_pos_left (Int.fract_lt_one _) hy
      linarith
  · have hne : rtrunc (x / y) = ⌈x / y⌉ := by
      unfold rtrunc
      rw [if_neg (not_le.mpr hq)]
    have hrm : rustRem x y = y * (x / y - (⌈x / y⌉ : ℝ)) := by
      unfold rustRem
      rw [hne, mul_sub, mul_div_cancel₀ _ hy.ne']
    have h2 : x / y - (⌈x / y⌉ : ℝ) ≤ 0 := sub_nonpos.mpr (Int.le_ceil _)
    have h3 : -1 < x / y - (⌈x / y⌉ : ℝ) := by
      have := Int.ceil_lt_add_one (x / y)
      linarith
    constructor
    · rw [hrm]
      nlinarith
    · rw [hrm]
      nlinarith

lemma rustRem_eq_self (x y : ℝ) (hx : 0 ≤ x) (hxy : x < y) : rustRem x y = x := by
  have hy : 0 < y := lt_of_le_of_lt hx hxy
  have hq0 : ⌊x / y⌋ = 0 := by
    rw [Int.floor_eq_iff]
    constructor
    · exact_mod_cast div_nonneg hx hy.le
    · have hd1 : x / y < 1 := (div_lt_one hy).mpr hxy
      push_cast
      linarith
  unfold rustRem rtrunc
  rw [if_pos (div_nonneg hx hy.le), hq0]
  simp

lemma rustRem_eq_sub (x y : ℝ) (hy : 0 < y) (h1 : y ≤ x) (h2 : x < 2 * y) :
    rustRem x y = x - y := by
  have hq1 : ⌊x / y⌋ = 1 := by
    rw [Int.floor_eq_iff]
    constructor
    · push_cast
      rw [le_div_iff hy]
      linarith
    · push_cast
      rw [div_lt_iff hy]
      linarith
  unfold rustRem rtrunc
  rw [if_pos (div_nonneg (by linarith) hy.le), hq1]
  simp

lemma angle_normalize_deg (a : Angle) :
    a.normalize.deg = rustRem (rustRem a.deg 360 + 360) 360 := rfl

lemma angle_normalize_mem (a : Angle) : 0 ≤ a.normalize.deg ∧ a.normalize.deg < 360 := by
  have hb := rustRem_bounds a.deg 360 (by norm_num)
  have hpos : 0 ≤ rustRem a.deg 360 + 360 := by linarith [hb.1]
  rw [angle_normalize_deg]
  exact ⟨rustRem_nonneg _ _ hpos (by norm_num),
    rustRem_lt _ _ hpos (by norm_num)⟩

lemma angle_normalize_of_mem (a : Angle) (h0 : 0 ≤ a.deg) (h1 : a.deg < 360) :
    a.normalize = a := by
  have hr1 : rustRem a.deg 360 = a.deg := rustRem_eq_self _ _ h0 h1
  have hr2 : rustRem (a.deg + 360) 360 = a.deg := by
    rw [rustRem_eq_sub (a.deg + 360) 360 (by norm_num) (by linarith) (by linarith)]
    ring
  unfold Angle.normalize
  rw [hr1, hr2]

lemma angle_normalize_idem (a : Angle) : a.normalize.normalize = a.normalize :=
  angle_normalize_of_mem _ (angle_normalize_mem a).1 (angle_normalize_mem a).2

lemma atan2Real_mem (y x : ℝ) :
    -Real.pi < atan2Real y x ∧ atan2Real y x ≤ Real.pi := by
  have hpi := Real.pi_pos
  unfold atan2Real
  split_ifs with h1 h2 h3 h4 h5
  · have ha := Real.arctan_lt_pi_div_two (y / x)
    have hb := Real.neg_pi_div_two_lt_arctan (y / x)
    constructor <;> linarith
  · have hq : y / x ≤ 0 := div_nonpos_iff.mpr (Or.inl ⟨h3, h2.le⟩)
    have ha : Real.arctan (y / x) ≤ 0 := by
      have := Real.arctan_strictMono.monotone hq
      rwa [Real.arctan_zero] at this
    have hb := Real.neg_pi_div_two_lt_arctan (y / x)
    constructor <;> linarith
  · have hq : 0 < y / x := div_pos_iff.mpr (Or.inr ⟨not_le.mp h3, h2⟩)
    have ha : 0 < Real.arctan (y / x) := by
      have := Real.arctan_strictMono hq
      rwa [Real.arctan_zero] at this
    have hb := Real.arctan_lt_pi_div_two (y / x)
    constructor <;> linarith
  · constructor <;> linarith
  · constructor <;> linarith
  · constructor <;> linarith

lemma rustRem_one_eq_zero (x : ℝ) (n : ℤ) (h0 : 0 ≤ x) (h : x = (n : ℝ)) :
    rustRem x 1 = 0 := by
  unfold rustRem rtrunc
  rw [div_one, if_pos h0, h]
  simp

lemma era_eval (v r : ℝ) (hfrac : rustRem v 1 = 0)
    (hr : 0.7790572732640 + 0.00273781191135448 * (v - 2451545) = r)
    (h0 : 0 ≤ r * 360) (h1 : r * 360 < 360) :
    earth_rotation_angle ⟨v⟩ = ⟨r * 360⟩ := by
  have hdef : earth_rotation_angle ⟨v⟩ =
      (Angle.from_rotations (0.7790572732640
        + 0.00273781191135448 * (v - 2451545) + rustRem v 1)).normalize := rfl
  rw [hdef, hfrac, add_zero, hr]
  exact angle_normalize_of_mem ⟨r * 360⟩ h0 h1

lemma era_at_2451545 : earth_rotation_angle ⟨2451545⟩ = ⟨0.7790572732640 * 360⟩ :=
  era_eval 2451545 0.7790572732640
    (rustRem_one_eq_zero _ 2451545 (by norm_num) (by norm_num))
    (by norm_num) (by norm_num) (by norm_num)

lemma era_at_2451546 : earth_rotation_angle ⟨2451546⟩ = ⟨0.78179508517535448 * 360⟩ :=
  era_eval 2451546 0.78179508517535448
    (rustRem_one_eq_zero _ 2451546 (by norm_num) (by norm_num))
    (by norm_num) (by norm_num) (by norm_num)

/-! The claims. -/

/-- Claim C8: for every real d, Angle::from_degrees(d).normalize() has degree
value ((d % 360) + 360) % 360 computed with the Rust remainder, which lies in
[0, 360); as a consequence normalize is idempotent. -/
theorem C8_normalize_range_idem :
    (∀ d : ℝ, (Angle.from_degrees d).normalize.degrees
        = rustRem (rustRem d 360 + 360) 360) ∧
    (∀ d : ℝ, 0 ≤ (Angle.from_degrees d).normalize.degrees ∧
        (Angle.from_degrees d).normalize.degrees < 360) ∧
    (∀ a : Angle, a.normalize.normalize = a.normalize) :=
  ⟨fun _ => rfl, fun d => angle_normalize_mem (Angle.from_degrees d),
    angle_normalize_idem⟩

/-- Claim C3: for every JulianDate jd, earth_rotation_angle(jd) equals
Angle::from_rotations(0.7790572732640 + 0.00273781191135448·(jd − J2000)
+ frac(jd)) normalized into [0, one full turn); consequently the rotations
of ERA at JD 2451546 minus those at JD 2451545 equal
1.00273781191135448 modulo 1, exactly 1.00273781191135448 − 1. -/
theorem C3_earth_rotation_angle :
    (∀ jd : JulianDate, earth_rotation_angle jd =
      (Angle.from_rotations (0.7790572732640
        + 0.00273781191135448 * (jd.val - 2451545) + rustRem jd.val 1)).normalize) ∧
    (∀ jd : JulianDate, 0 ≤ (earth_rotation_angle jd).degrees ∧
      (earth_rotation_angle jd).degrees < 360) ∧
    (earth_rotation_angle ⟨2451546⟩).rotations
        - (earth_rotation_angle ⟨2451545⟩).rotations
      = 1.00273781191135448 - 1 := by
  refine ⟨fun jd => rfl, fun jd => angle_normalize_mem _, ?_⟩
  rw [era_at_2451545, era_at_2451546]
  unfold Angle.rotations
  norm_num

/-- Claim C1 (code-bug exhibit): at jd = J2000 the implemented GMST is not
ERA(jd) plus the arcsecond polynomial converted to the Angle units.  The
implementation feeds 86400·ERA_rotations + P_arcseconds to
Angle::from_radians, yielding more than three million degrees, while the
specification value ERA + P/3600 degrees stays below 281 degrees. -/
theorem C1_gmst_deviates_at_J2000 :
    (gmstSpecification ⟨2451545⟩).degrees < 281 ∧
    (3000000 : ℝ) < (greenwich_mean_sidereal_time ⟨2451545⟩).degrees ∧
    greenwich_mean_sidereal_time ⟨2451545⟩ ≠ gmstSpecification ⟨2451545⟩ := by
  have hspec : (gmstSpecification ⟨2451545⟩).degrees
      = 0.7790572732640 * 360 + 0.014506 / 3600 := by
    have hdef : gmstSpecification ⟨2451545⟩ =
        earth_rotation_angle ⟨2451545⟩ + Angle.from_degrees
          ((0.014506 + 4612.156534 * ((2451545 - 2451545) / 36525)
            + 1.3915817 * ((2451545 - 2451545) / 36525) ^ 2
            - 0.00000044 * ((2451545 - 2451545) / 36525) ^ 3
            - 0.000029956 * ((2451545 - 2451545) / 36525) ^ 4
            - 0.0000000368 * ((2451545 - 2451545) / 36525) ^ 5) / 3600) := rfl
    rw [hdef, era_at_2451545]
    show (0.7790572732640 * 360 : ℝ) + _ = _
    norm_num [Angle.from_degrees]
  have hcode : (greenwich_mean_sidereal_time ⟨2451545⟩).degrees
      = (86400 * (0.7790572732640 * 360 / 360)
          + (0.014506 + 4612.156534 * ((2451545 - 2451545) / 36525)
            + 1.3915817 * ((2451545 - 2451545) / 36525) ^ 2
            - 0.00000044 * ((2451545 - 2451545) / 36525) ^ 3
            - 0.000029956 * ((2451545 - 2451545) / 36525) ^ 4
            - 0.0000000368 * ((2451545 - 2451545) / 36525) ^ 5)) * (180 / Real.pi) := by
    have hdef : greenwich_mean_sidereal_time ⟨2451545⟩ =
        Angle.from_radians (86400 * (earth_rotation_angle ⟨2451545⟩).rotations
          + (0.014506 + 4612.156534 * ((2451545 - 2451545) / 36525)
            + 1.3915817 * ((2451545 - 2451545) / 36525) ^ 2
            - 0.00000044 * ((2451545 - 2451545) / 36525) ^ 3
            - 0.000029956 * ((2451545 - 2451545) / 36525) ^ 4
            - 0.0000000368 * ((2451545 - 2451545) / 36525) ^ 5)) := rfl
    rw [hdef, era_at_2451545]
    rfl
  have hpi := Real.pi_pos
  have hpi4 := Real.pi_le_four
  have hcodebig : (3000000 : ℝ) < (greenwich_mean_sidereal_time ⟨2451545⟩).degrees := by
    rw [hcode]
    have hco : (86400 * (0.7790572732640 * 360 / 360)
        + (0.014506 + 4612.156534 * ((2451545 - 2451545) / 36525)
          + 1.3915817 * ((2451545 - 2451545) / 36525) ^ 2
          - 0.00000044 * ((2451545 - 2451545) / 36525) ^ 3
          - 0.000029956 * ((2451545 - 2451545) / 36525) ^ 4
          - 0.0000000368 * ((2451545 - 2451545) / 36525) ^ 5) : ℝ)
        = 67310.5629160096 := by norm_num
    rw [hco]
    have h45 : (45 : ℝ) ≤ 180 / Real.pi := by
      rw [le_div_iff hpi]
      linarith
    nlinarith
  refine ⟨by rw [hspec]; norm_num, hcodebig, ?_⟩
  intro heq
  rw [heq, hspec] at hcodebig
  norm_num at hcodebig

/-- Claim C2: for every SkyCoord and GroundCoord, alt_az returns the pair
(altitude, azimuth) in that order, where LST = (GMST(date) + long) mod one
full turn, h is LST − ra folded by adding a full turn when negative and
subtracting one when above pi radians, altitude = asin(sin lat·sin dec +
cos lat·cos dec·cos h), and azimuth = atan2(sin h, cos h·sin lat −
tan dec·cos lat) − 180°, plus a full turn when that result is negative. -/
theorem C2_alt_az_formula (s : SkyCoord) (g : GroundCoord) :
    s.alt_az g =
      (fun h =>
        (Angle.asin (g.lat.sin * s.dec.sin + g.lat.cos * s.dec.cos * h.cos),
         (fun raw => if raw.radians < 0 then raw + Angle.TAU else raw)
           (Angle.atan2 h.sin (h.cos * g.lat.sin - s.dec.tan * g.lat.cos)
             - Angle.PI)))
      ((fun d => if d.radians < 0 then d + Angle.TAU
                 else if Real.pi < d.radians then d - Angle.TAU else d)
       ((greenwich_mean_sidereal_time s.date + g.long) % Angle.TAU - s.ra)) := rfl

/-- Claim C7: pixel_to_world applies the affine map A·(x, y) + t to the
pixel pair, interprets the components as RA and Dec in degrees, and
attaches the date J2000; in particular at pixel (0, 0) the RA and Dec are
the translation components in degrees. -/
theorem C7_pixel_to_world (m0 m1 m2 m3 t0 t1 x y : ℝ) :
    (WorldTransform.from_mat2_translation m0 m1 m2 m3 t0 t1).pixel_to_world (x, y) =
      ⟨Angle.from_degrees (m0 * x + m2 * y + t0),
       Angle.from_degrees (m1 * x + m3 * y + t1), JulianDate.J2000⟩ ∧
    (WorldTransform.from_mat2_translation m0 m1 m2 m3 t0 t1).pixel_to_world (0, 0) =
      ⟨Angle.from_degrees t0, Angle.from_degrees t1, JulianDate.J2000⟩ := by
  constructor
  · rfl
  · show (⟨⟨m0 * 0 + m2 * 0 + t0⟩, ⟨m1 * 0 + m3 * 0 + t1⟩, JulianDate.J2000⟩ : SkyCoord) = _
    norm_num [Angle.from_degrees]

/-- Claim C9 (counterexample): two PlateSolveResult values that agree on
their right ascension and declination but differ in the field of view are
distinct, so the type is not the claimed two-component
(SkyCoord, WorldTransform) aggregate — it carries fov, pixel_scale and
orientation components and no WorldTransform at all. -/
theorem C9_counterexample :
    Solver.PlateSolveResult.mk (Solver.RightAscention.new 10)
        (Solver.Declination.new 20) (Solver.FieldOfView.new 1)
        (Solver.PixelScale.new 2) (Solver.Orientation.new 3) ≠
      Solver.PlateSolveResult.mk (Solver.RightAscention.new 10)
        (Solver.Declination.new 20) (Solver.FieldOfView.new 4)
        (Solver.PixelScale.new 2) (Solver.Orientation.new 3) ∧
    Solver.RightAscention.new 10 = Solver.RightAscention.new 10 ∧
    Solver.Declination.new 20 = Solver.Declination.new 20 := by
  refine ⟨fun h => ?_, rfl, rfl⟩
  have hf : (1 : ℝ) = 4 := congrArg (fun r => r.fov.val.deg) h
  norm_num at hf

/-- Claim C9 (amended): a PlateSolveResult is an aggregate of exactly five
components — ra, dec, fov, pixel_scale and orientation — and is uniquely
determined by them. -/
theorem C9_five_components :
    (∀ r : Solver.PlateSolveResult,
      r = Solver.PlateSolveResult.mk r.ra r.dec r.fov r.pixel_scale r.orientation) ∧
    (∀ r s : Solver.PlateSolveResult, r.ra = s.ra → r.dec = s.dec →
      r.fov = s.fov → r.pixel_scale = s.pixel_scale →
      r.orientation = s.orientation → r = s) := by
  refine ⟨fun r => rfl, fun r s h1 h2 h3 h4 h5 => ?_⟩
  cases r
  cases s
  simp_all

/-- Witness for the amended claim C9 at two concrete equal-component values. -/
theorem C9_five_components_witness :
    Solver.PlateSolveResult.mk (Solver.RightAscention.new 5)
        (Solver.Declination.new 6) (Solver.FieldOfView.new 7)
        (Solver.PixelScale.new 8) (Solver.Orientation.new 9) =
      Solver.PlateSolveResult.mk (Solver.RightAscention.new 5)
        (Solver.Declination.new 6) (Solver.FieldOfView.new 7)
        (Solver.PixelScale.new 8) (Solver.Orientation.new 9) :=
  C9_five_components.2 _ _ rfl rfl rfl rfl rfl

lemma dvec2_add (a b : DVec2) : a + b = ⟨a.x + b.x, a.y + b.y⟩ := rfl

lemma dvec2_neg (a : DVec2) : -a = ⟨-a.x, -a.y⟩ := rfl

/-- Claim C4: for every WorldTransform with invertible linear part and every
pixel pair, world_to_pixel after pixel_to_world returns the original pixel
pair exactly (hence within any tolerance). -/
theorem C4_round_trip (wt : WorldTransform) (x y : ℝ)
    (hdet : wt.affine.matrix2.determinant ≠ 0) :
    wt.world_to_pixel (wt.pixel_to_world (x, y)) = (x, y) := by
  obtain ⟨⟨⟨⟨a, b⟩, ⟨c, d⟩⟩, ⟨tx, ty⟩⟩⟩ := wt
  simp only [DMat2.determinant] at hdet
  simp only [WorldTransform.world_to_pixel, WorldTransform.pixel_to_world,
    DAffine2.inverse, DAffine2.transform_point2, DMat2.inverse, DMat2.determinant,
    DMat2.mulVec, SkyCoord.from_ra_dec, SkyCoord.ra_dec, Angle.from_degrees,
    Angle.degrees, dvec2_add, dvec2_neg, Prod.mk.injEq]
  constructor <;> field_simp <;> ring

/-- Witness for claim C4: the sample transform has nonzero determinant and
round trips the pixel (0, 0) exactly. -/
theorem C4_round_trip_witness :
    sampleTransform.affine.matrix2.determinant ≠ 0 ∧
    sampleTransform.world_to_pixel (sampleTransform.pixel_to_world (0, 0)) = (0, 0) :=
  ⟨by norm_num [sampleTransform, WorldTransform.from_mat2_translation,
      DAffine2.from_mat2_translation, DMat2.from_cols_array, DMat2.determinant],
   C4_round_trip sampleTransform 0 0
     (by norm_num [sampleTransform, WorldTransform.from_mat2_translation,
       DAffine2.from_mat2_translation, DMat2.from_cols_array, DMat2.determinant])⟩

lemma asin_degrees_mem (v : ℝ) :
    -90 ≤ (Angle.asin v).degrees ∧ (Angle.asin v).degrees ≤ 90 := by
  have h1 := Real.arcsin_le_pi_div_two v
  have h2 := Real.neg_pi_div_two_le_arcsin v
  have hpi := Real.pi_pos
  have hfrac : (0:ℝ) < 180 / Real.pi := by positivity
  have e1 : -(Real.pi / 2) * (180 / Real.pi) = -90 := by
    field_simp
    ring
  have e2 : Real.pi / 2 * (180 / Real.pi) = 90 := by
    field_simp
    ring
  unfold Angle.asin Angle.degrees
  constructor
  · have := mul_le_mul_of_nonneg_right h2 hfrac.le
    rw [e1] at this
    linarith
  · have := mul_le_mul_of_nonneg_right h1 hfrac.le
    rw [e2] at this
    linarith

lemma atan2_degrees_mem (p q : ℝ) :
    -180 < (Angle.atan2 p q).degrees ∧ (Angle.atan2 p q).degrees ≤ 180 := by
  obtain ⟨h1, h2⟩ := atan2Real_mem p q
  have hpi := Real.pi_pos
  have hfrac : (0:ℝ) < 180 / Real.pi := by positivity
  have e1 : -Real.pi * (180 / Real.pi) = -180 := by
    field_simp
    ring
  have e2 : Real.pi * (180 / Real.pi) = 180 := by
    field_simp
  unfold Angle.atan2 Angle.degrees
  constructor
  · have := mul_lt_mul_of_pos_right h1 hfrac
    rw [e1] at this
    linarith
  · have := mul_le_mul_of_nonneg_right h2 hfrac.le
    rw [e2] at this
    linarith

lemma azfold_mem (a : Angle) (h1 : -360 < a.deg) (h2 : a.deg ≤ 0) :
    0 ≤ (if a.radians < 0 then a + Angle.TAU else a).degrees ∧
    (if a.radians < 0 then a + Angle.TAU else a).degrees < 360 := by
  have hpi := Real.pi_pos
  by_cases hneg : a.radians < 0
  · rw [if_pos hneg]
    show 0 ≤ a.deg + 360 ∧ a.deg + 360 < 360
    have hdneg : a.deg < 0 := by
      by_contra hge
      push_neg at hge
      have hnn : 0 ≤ a.radians := mul_nonneg hge (by positivity)
      linarith
    constructor <;> linarith
  · rw [if_neg hneg]
    push_neg at hneg
    show 0 ≤ a.deg ∧ a.deg < 360
    have hd0 : 0 ≤ a.deg := by
      by_contra hlt
      push_neg at hlt
      have hr : a.radians < 0 := mul_neg_of_neg_of_pos hlt (by positivity)
      linarith
    constructor <;> linarith

/-- Claim C6: for every SkyCoord and GroundCoord, alt_az returns an altitude
in [-90, +90] degrees and an azimuth in [0, 360) degrees. -/
theorem C6_alt_az_ranges (s : SkyCoord) (g : GroundCoord) :
    (-90 ≤ (s.alt_az g).1.degrees ∧ (s.alt_az g).1.degrees ≤ 90) ∧
    (0 ≤ (s.alt_az g).2.degrees ∧ (s.alt_az g).2.degrees < 360) := by
  obtain ⟨ha1, ha2⟩ := asin_degrees_mem
    (g.lat.sin * s.dec.sin + g.lat.cos * s.dec.cos * (hourAngle s g).cos)
  obtain ⟨hb1, hb2⟩ := atan2_degrees_mem (hourAngle s g).sin
    ((hourAngle s g).cos * g.lat.sin - s.dec.tan * g.lat.cos)
  have hb1d : -180 < (Angle.atan2 (hourAngle s g).sin
      ((hourAngle s g).cos * g.lat.sin - s.dec.tan * g.lat.cos)).deg := hb1
  have hb2d : (Angle.atan2 (hourAngle s g).sin
      ((hourAngle s g).cos * g.lat.sin - s.dec.tan * g.lat.cos)).deg ≤ 180 := hb2
  have hs1 : -360 < (Angle.atan2 (hourAngle s g).sin
      ((hourAngle s g).cos * g.lat.sin - s.dec.tan * g.lat.cos) - Angle.PI).deg := by
    show -360 < (Angle.atan2 (hourAngle s g).sin
      ((hourAngle s g).cos * g.lat.sin - s.dec.tan * g.lat.cos)).deg - 180
    linarith
  have hs2 : (Angle.atan2 (hourAngle s g).sin
      ((hourAngle s g).cos * g.lat.sin - s.dec.tan * g.lat.cos) - Angle.PI).deg ≤ 0 := by
    show (Angle.atan2 (hourAngle s g).sin
      ((hourAngle s g).cos * g.lat.sin - s.dec.tan * g.lat.cos)).deg - 180 ≤ 0
    linarith
  have haz := azfold_mem (Angle.atan2 (hourAngle s g).sin
    ((hourAngle s g).cos * g.lat.sin - s.dec.tan * g.lat.cos) - Angle.PI) hs1 hs2
  exact ⟨⟨ha1, ha2⟩, haz⟩

/-- Claim C5 (counterexample): for the sky coordinate with ra = -1000
degrees observed from latitude and longitude zero, the hour angle computed
inside alt_az does not lie in (-pi, +pi]: its fold lands above +pi. -/
theorem C5_counterexample :
    ¬(-Real.pi < (hourAngle badSky originGround).radians ∧
      (hourAngle badSky originGround).radians ≤ Real.pi) := by
  have hpi := Real.pi_pos
  have hlst : (localSiderealTime badSky originGround).deg =
      rustRem ((greenwich_mean_sidereal_time badSky.date).deg
        + (originGround.long).deg) 360 := rfl
  obtain ⟨hlo, hhi⟩ := rustRem_bounds ((greenwich_mean_sidereal_time badSky.date).deg
    + (originGround.long).deg) 360 (by norm_num)
  have hlo' : -360 < (localSiderealTime badSky originGround).deg := by
    rw [hlst]
    exact hlo
  have hhi' : (localSiderealTime badSky originGround).deg < 360 := by
    rw [hlst]
    exact hhi
  have hdiff : (localSiderealTime badSky originGround - badSky.ra).deg
      = (localSiderealTime badSky originGround).deg + 1000 := by
    show (localSiderealTime badSky originGround).deg - (-1000)
        = (localSiderealTime badSky originGround).deg + 1000
    ring
  have hdrad : 0 ≤ (localSiderealTime badSky originGround - badSky.ra).radians := by
    show 0 ≤ (localSiderealTime badSky originGround - badSky.ra).deg * (Real.pi / 180)
    rw [hdiff]
    apply mul_nonneg
    · linarith
    · positivity
  have hgt : Real.pi < (localSiderealTime badSky originGround - badSky.ra).radians := by
    show Real.pi < (localSiderealTime badSky originGround - badSky.ra).deg * (Real.pi / 180)
    rw [hdiff]
    nlinarith [mul_pos hpi (show (0:ℝ) < (localSiderealTime badSky originGround).deg + 820
      from by linarith)]
  have hfold : hourAngle badSky originGround =
      localSiderealTime badSky originGround - badSky.ra - Angle.TAU := by
    unfold hourAngle foldHourAngle
    rw [if_neg (not_lt.mpr hdrad), if_pos hgt]
  rintro ⟨-, hle⟩
  rw [hfold] at hle
  have hrad : (localSiderealTime badSky originGround - badSky.ra - Angle.TAU).radians
      = ((localSiderealTime badSky originGround).deg + 1000 - 360) * (Real.pi / 180) := by
    show ((localSiderealTime badSky originGround - badSky.ra).deg - 360)
        * (Real.pi / 180) = _
    rw [hdiff]
  rw [hrad] at hle
  nlinarith [mul_pos hpi (show (0:ℝ) < (localSiderealTime badSky originGround).deg + 460
    from by linarith)]

/-- Claim C5 (amended): the fold applied inside alt_az maps any angle whose
degree value lies in [0, 540] (that is, LST − ra between 0 and 3·pi) into
(-pi, +pi] radians; for negative differences the fold adds a full turn and
can exceed +pi. -/
theorem C5_fold_in_range (d : Angle) (h0 : 0 ≤ d.degrees) (h1 : d.degrees ≤ 540) :
    -Real.pi < (foldHourAngle d).radians ∧ (foldHourAngle d).radians ≤ Real.pi := by
  have hpi := Real.pi_pos
  have hh0 : 0 ≤ d.deg := h0
  have hh1 : d.deg ≤ 540 := h1
  have hrad : 0 ≤ d.radians := mul_nonneg hh0 (by positivity)
  unfold foldHourAngle
  rw [if_neg (not_lt.mpr hrad)]
  by_cases hgt : Real.pi < d.radians
  · rw [if_pos hgt]
    have hshow : (d - Angle.TAU).radians = (d.deg - 360) * (Real.pi / 180) := rfl
    have hrd : d.radians = d.deg * (Real.pi / 180) := rfl
    rw [hrd] at hgt
    rw [hshow]
    constructor
    · nlinarith
    · nlinarith
  · rw [if_neg hgt]
    exact ⟨by linarith, not_lt.mp hgt⟩

/-- Witness for the amended claim C5 at the 90-degree difference. -/
theorem C5_fold_in_range_witness :
    0 ≤ (Angle.from_degrees 90).degrees ∧ (Angle.from_degrees 90).degrees ≤ 540 ∧
    (-Real.pi < (foldHourAngle (Angle.from_degrees 90)).radians ∧
      (foldHourAngle (Angle.from_degrees 90)).radians ≤ Real.pi) :=
  ⟨by norm_num [Angle.from_degrees, Angle.degrees],
   by norm_num [Angle.from_degrees, Angle.degrees],
   C5_fold_in_range (Angle.from_degrees 90)
     (by norm_num [Angle.from_degrees, Angle.degrees])
     (by norm_num [Angle.from_degrees, Angle.degrees])⟩

/-- Claim C10: world_to_pixel depends only on the ra and dec of the
SkyCoord, never on its stored date. -/
theorem C10_world_to_pixel_ignores_date (wt : WorldTransform) (s1 s2 : SkyCoord)
    (hra : s1.ra = s2.ra) (hdec : s1.dec = s2.dec) :
    wt.world_to_pixel s1 = wt.world_to_pixel s2 := by
  unfold WorldTransform.world_to_pixel SkyCoord.ra_dec
  rw [hra, hdec]

/-- Witness for claim C10: two coordinates equal in ra and dec but with
different dates map to the same pixel. -/
theorem C10_witness :
    (SkyCoord.from_ra_dec_date (Angle.from_degrees 10) (Angle.from_degrees 20)
        ⟨2451545⟩).ra
      = (SkyCoord.from_ra_dec_date (Angle.from_degrees 10) (Angle.from_degrees 20)
        ⟨2460000⟩).ra ∧
    (SkyCoord.from_ra_dec_date (Angle.from_degrees 10) (Angle.from_degrees 20)
        ⟨2451545⟩).dec
      = (SkyCoord.from_ra_dec_date (Angle.from_degrees 10) (Angle.from_degrees 20)
        ⟨2460000⟩).dec ∧
    sampleTransform.world_to_pixel (SkyCoord.from_ra_dec_date (Angle.from_degrees 10)
        (Angle.from_degrees 20) ⟨2451545⟩)
      = sampleTransform.world_to_pixel (SkyCoord.from_ra_dec_date (Angle.from_degrees 10)
        (Angle.from_degrees 20) ⟨2460000⟩) :=
  ⟨rfl, rfl, C10_world_to_pixel_ignores_date sampleTransform _ _ rfl rfl⟩

end
